import Mathlib

/-!
Shallow embedding of the lexer and parser of the `interpreter` repository
(`src/lexer.rs`, `src/parser.rs`), together with the token model and the
AST rendering that the parser relies on.

Conventions of the embedding:
* the Rust `Chars` iterator of the lexer becomes a `List Char` of the
  remaining input;
* loops whose termination is not structurally evident in the source
  (the lexer's maximal-run scan, the parser's loops and its mutual
  recursion) take an explicit fuel argument and return `none` when the
  fuel runs out; divergence of the source is rendered as "`none` for
  every fuel";
* Rust panics (`unwrap`) are rendered as `none` of an `Option`;
* `Result<Node, ParserError>` becomes `Except ParserError Node`, and the
  mutable `&mut self` parser state is threaded explicitly, also on the
  error path, exactly as the Rust borrow does.
-/

namespace Interp

/-- `is_letter` from `src/lexer.rs`: ASCII letters and underscore. -/
def is_letter (ch : Char) : Bool :=
  (decide ('a' ≤ ch) && decide (ch ≤ 'z')) ||
  (decide ('A' ≤ ch) && decide (ch ≤ 'Z')) || (ch == '_')

/-- `is_digit` from `src/lexer.rs`: ASCII decimal digits. -/
def is_digit (ch : Char) : Bool :=
  decide ('0' ≤ ch) && decide (ch ≤ '9')

/-- Modelled from the spec: the token kinds of the missing `tokens.rs`
(identifier, integer literal, boolean keywords, the operators
`= + - ! * / < > == !=`, delimiters, keywords `let return if else fn`,
end-of-input, illegal), with the names used by `src/parser.rs`. -/
inductive TokenType where
  | Ident | Int
  | Assign | Plus | Minus | Bang | Asterisk | Slash
  | LessThan | GreaterThan | Equal | NotEqual
  | Comma | Semicolon | LParen | RParen | LBrace | RBrace
  | Let | Return | If | Else | Function | True | False
  | EOF | Illegal
  deriving DecidableEq

/-- Modelled from the spec: a token is a kind plus the literal text matched,
with structural equality; the field names `t`/`v` are the ones
`src/parser.rs` accesses on the missing `tokens.rs`. -/
structure Token where
  t : TokenType
  v : String
  deriving DecidableEq

/-- Modelled from the spec: `Token::default()` of the missing `tokens.rs`.
`Parser::new` overwrites both pre-loaded tokens before any parsing, so no
behaviour of the embedding depends on this value. -/
def Token.default : Token := ⟨TokenType.Illegal, ""⟩

/-- Modelled from the spec: `Token::from(&str)` of the missing `tokens.rs` —
keyword vs. identifier classification by literal lookup over the fixed
keyword set `let return if else fn true false`. -/
def Token.from_str (s : String) : Token :=
  if s == "let" then ⟨TokenType.Let, s⟩
  else if s == "return" then ⟨TokenType.Return, s⟩
  else if s == "if" then ⟨TokenType.If, s⟩
  else if s == "else" then ⟨TokenType.Else, s⟩
  else if s == "fn" then ⟨TokenType.Function, s⟩
  else if s == "true" then ⟨TokenType.True, s⟩
  else if s == "false" then ⟨TokenType.False, s⟩
  else ⟨TokenType.Ident, s⟩

/-- The lexer state of `src/lexer.rs`: the remaining input characters and
the current character `ch`. -/
structure Lexer where
  input : List Char
  ch : Char
  deriving DecidableEq

/-- `Lexer::new` from `src/lexer.rs`. The Rust code runs
`input.next().unwrap()`, which panics when the input string is empty;
the panic is rendered as `none`. -/
def Lexer.new : List Char → Option Lexer
  | [] => none
  | c :: cs => some ⟨cs, c⟩

/-- `Lexer::read_char` from `src/lexer.rs`: advance the cursor, writing the
sentinel character `'0'` into `ch` once the input is exhausted. -/
def Lexer.read_char (l : Lexer) : Lexer :=
  match l.input with
  | c :: cs => ⟨cs, c⟩
  | [] => ⟨[], '0'⟩

/-- The whitespace test of `Lexer::eat_whitespace` in `src/lexer.rs`:
space, tab, line feed, carriage return. -/
def is_whitespace (ch : Char) : Bool :=
  ch == ' ' || ch == '\t' || ch == '\n' || ch == '\r'

/-- The `while` loop of `Lexer::eat_whitespace`, structurally recursive on
the remaining input: once the input is exhausted `read_char` writes the
sentinel `'0'`, which is not whitespace, so the loop stops. -/
def eat_ws_core : List Char → Char → Lexer
  | [], ch =>
    if is_whitespace ch then ⟨[], '0'⟩
    else ⟨[], ch⟩
  | c :: cs, ch =>
    if is_whitespace ch then eat_ws_core cs c
    else ⟨c :: cs, ch⟩

/-- `Lexer::eat_whitespace` from `src/lexer.rs`. -/
def Lexer.eat_whitespace (l : Lexer) : Lexer :=
  eat_ws_core l.input l.ch

/-- `Lexer::read_ident` from `src/lexer.rs`: greedily consume the maximal
run of characters satisfying `cond`, returning the consumed run. The Rust
loop has no termination guarantee of its own (the sentinel `'0'` satisfies
`is_digit`), so the loop carries fuel; `none` means the fuel ran out. -/
def Lexer.read_ident (cond : Char → Bool) : Nat → Lexer → Option (List Char × Lexer)
  | 0, _ => none
  | fuel + 1, l =>
    if cond l.ch then
      match Lexer.read_ident cond fuel l.read_char with
      | some (s, l1) => some (l.ch :: s, l1)
      | none => none
    else
      some ([], l)

/-- `Lexer::next_token` from `src/lexer.rs`: skip whitespace, then dispatch
on the current character exactly in the order of the Rust `match` — in
particular `'0'` maps to the end-of-input token before the digit branch is
ever consulted. -/
def Lexer.next_token (fuel : Nat) (l0 : Lexer) : Option (Token × Lexer) :=
  let l := l0.eat_whitespace
  if l.ch == '=' then some (⟨TokenType.Assign, String.mk [l.ch]⟩, l.read_char)
  else if l.ch == '+' then some (⟨TokenType.Plus, String.mk [l.ch]⟩, l.read_char)
  else if l.ch == '-' then some (⟨TokenType.Minus, String.mk [l.ch]⟩, l.read_char)
  else if l.ch == '!' then some (⟨TokenType.Bang, String.mk [l.ch]⟩, l.read_char)
  else if l.ch == '*' then some (⟨TokenType.Asterisk, String.mk [l.ch]⟩, l.read_char)
  else if l.ch == '/' then some (⟨TokenType.Slash, String.mk [l.ch]⟩, l.read_char)
  else if l.ch == '<' then some (⟨TokenType.LessThan, String.mk [l.ch]⟩, l.read_char)
  else if l.ch == '>' then some (⟨TokenType.GreaterThan, String.mk [l.ch]⟩, l.read_char)
  else if l.ch == ',' then some (⟨TokenType.Comma, String.mk [l.ch]⟩, l.read_char)
  else if l.ch == ';' then some (⟨TokenType.Semicolon, String.mk [l.ch]⟩, l.read_char)
  else if l.ch == '(' then some (⟨TokenType.LParen, String.mk [l.ch]⟩, l.read_char)
  else if l.ch == ')' then some (⟨TokenType.RParen, String.mk [l.ch]⟩, l.read_char)
  else if l.ch == '{' then some (⟨TokenType.LBrace, String.mk [l.ch]⟩, l.read_char)
  else if l.ch == '}' then some (⟨TokenType.RBrace, String.mk [l.ch]⟩, l.read_char)
  else if l.ch == '0' then some (⟨TokenType.EOF, ""⟩, l.read_char)
  else if is_letter l.ch then
    match Lexer.read_ident is_letter fuel l with
    | some (s, l1) => some (Token.from_str (String.mk s), l1)
    | none => none
  else if is_digit l.ch then
    match Lexer.read_ident is_digit fuel l with
    | some (s, l1) => some (⟨TokenType.Int, String.mk s⟩, l1)
    | none => none
  else some (⟨TokenType.Illegal, String.mk [l.ch]⟩, l.read_char)

/-- The AST node type used by `src/parser.rs` (the enum `Node`; the
trait-based `src/ast.rs` in the repository is the superseded variant).
Variant shapes are exactly the ones `src/parser.rs` constructs. -/
inductive Node where
  | Program (statements : List Node)
  | LetStatement (name : Node) (value : Option Node)
  | ReturnStatement (value : Option Node)
  | ExpressionStatement (expression : Option Node)
  | BlockStatement (statements : List Node)
  | Identifier (value : Token)
  | IntegerLiteral (value : Int)
  | Boolean (value : Bool)
  | PrefixExpression (operator : String) (right : Node)
  | InfixExpression (left : Node) (operator : String) (right : Node)
  | IfExpression (condition : Node) (consequence : Node) (alternative : Option Node)
  | FunctionLiteral (parameters : List Node) (body : Node)
  | CallExpression (function : Node) (arguments : List Node)

/-- `Precedence` from `src/parser.rs`, with its derived order given by the
declaration order. -/
inductive Precedence where
  | Lowest | Equals | LessGreater | Sum | Product | Prefix | Call
  deriving DecidableEq

/-- Numeric value of a precedence level, realizing the `Ord` instance that
Rust derives from the declaration order. -/
def Precedence.toNat : Precedence → Nat
  | .Lowest => 0
  | .Equals => 1
  | .LessGreater => 2
  | .Sum => 3
  | .Product => 4
  | .Prefix => 5
  | .Call => 6

/-- The strict order `<` on `Precedence` used by `parse_expression`. -/
def Precedence.lt (a b : Precedence) : Bool :=
  decide (a.toNat < b.toNat)

/-- `ParserError` from `src/parser.rs`. -/
inductive ParserError where
  | TokenUnrecognized
  | IdentExpected
  | AssignExpected
  | IntegerParsingFailed
  | BooleanParsingFailed
  | GroupExpressionParsingFailed
  | IncorrectIfStatement
  | IncorrectFunctionDeclaration
  deriving DecidableEq

/-- The parser state of `src/parser.rs`: the lexer, the two pre-loaded
tokens, and the accumulated error list. -/
structure Parser where
  lexer : Lexer
  curr_token : Token
  peek_token : Token
  errors : List ParserError
  deriving DecidableEq

/-- `Parser::next_token` from `src/parser.rs`: shift `peek` into `curr` and
pull one token from the lexer. -/
def Parser.next_token (fuel : Nat) (p : Parser) : Option Parser :=
  match Lexer.next_token fuel p.lexer with
  | some (tok, lx) =>
      some { lexer := lx, curr_token := p.peek_token, peek_token := tok,
             errors := p.errors }
  | none => none

/-- `Parser::expect_peek` from `src/parser.rs`: advance and answer `true`
when the peek token has the wanted kind, otherwise answer `false` without
consuming anything. -/
def Parser.expect_peek (fuel : Nat) (tt : TokenType) (p : Parser) :
    Option (Bool × Parser) :=
  if p.peek_token.t = tt then
    match Parser.next_token fuel p with
    | some p1 => some (true, p1)
    | none => none
  else some (false, p)

/-- `Parser::finished` from `src/parser.rs`. -/
def Parser.finished (p : Parser) : Bool :=
  p.curr_token.t = TokenType.EOF

/-- `Parser::check_curr_precedence` from `src/parser.rs`. -/
def check_curr_precedence (p : Parser) : Precedence :=
  match p.curr_token.t with
  | TokenType.Equal => Precedence.Equals
  | TokenType.NotEqual => Precedence.Equals
  | TokenType.LessThan => Precedence.LessGreater
  | TokenType.GreaterThan => Precedence.LessGreater
  | TokenType.Plus => Precedence.Sum
  | TokenType.Minus => Precedence.Sum
  | TokenType.Slash => Precedence.Product
  | TokenType.Asterisk => Precedence.Product
  | TokenType.LParen => Precedence.Call
  | _ => Precedence.Lowest

/-- `Parser::check_peek_precedence` from `src/parser.rs`. -/
def check_peek_precedence (p : Parser) : Precedence :=
  match p.peek_token.t with
  | TokenType.Equal => Precedence.Equals
  | TokenType.NotEqual => Precedence.Equals
  | TokenType.LessThan => Precedence.LessGreater
  | TokenType.GreaterThan => Precedence.LessGreater
  | TokenType.Plus => Precedence.Sum
  | TokenType.Minus => Precedence.Sum
  | TokenType.Slash => Precedence.Product
  | TokenType.Asterisk => Precedence.Product
  | TokenType.LParen => Precedence.Call
  | _ => Precedence.Lowest

/-- `Parser::should_keep_parsing` from `src/parser.rs`. -/
def should_keep_parsing (p : Parser) : Bool :=
  match p.peek_token.t with
  | TokenType.Plus => true
  | TokenType.Minus => true
  | TokenType.Slash => true
  | TokenType.Asterisk => true
  | TokenType.Equal => true
  | TokenType.NotEqual => true
  | TokenType.LessThan => true
  | TokenType.GreaterThan => true
  | TokenType.LParen => true
  | _ => false

/-- Models Rust `str::parse::<i64>()` as used by `parse_integer_literal` on
the digit-run literals the lexer produces: a nonempty all-digit string
parses to its value when it fits in an `i64`, anything else fails. -/
def parse_i64 (s : String) : Option Int :=
  if s.data ≠ [] ∧ s.data.all is_digit then
    let n := s.data.foldl (fun acc c => acc * 10 + (c.toNat - '0'.toNat)) 0
    if n < 9223372036854775808 then some (Int.ofNat n) else none
  else none

/-- `Parser::parse_integer_literal` from `src/parser.rs` (no state change). -/
def parse_integer_literal (p : Parser) : Except ParserError Node :=
  match parse_i64 p.curr_token.v with
  | some n => Except.ok (Node.IntegerLiteral n)
  | none => Except.error ParserError.IntegerParsingFailed

/-- `Parser::parse_boolean_expression` from `src/parser.rs`: the value is
the structural comparison of the current token with `(True, "true")`. -/
def parse_boolean_expression (p : Parser) : Except ParserError Node :=
  Except.ok (Node.Boolean (decide (p.curr_token = ⟨TokenType.True, "true"⟩)))

mutual

/-- `Parser::parse_statement` from `src/parser.rs`. -/
def parse_statement : Nat → Parser → Option (Except ParserError Node × Parser)
  | 0, _ => none
  | fuel + 1, p =>
    match p.curr_token.t with
    | TokenType.Let => parse_let_statement fuel p
    | TokenType.Return => parse_return_statement fuel p
    | _ => parse_expression_statement fuel p

/-- `Parser::parse_let_statement` from `src/parser.rs`. -/
def parse_let_statement : Nat → Parser → Option (Except ParserError Node × Parser)
  | 0, _ => none
  | fuel + 1, p =>
    match Parser.expect_peek fuel TokenType.Ident p with
    | none => none
    | some (false, p1) => some (Except.error ParserError.IdentExpected, p1)
    | some (true, p1) =>
      let ident := Node.Identifier p1.curr_token
      match Parser.expect_peek fuel TokenType.Assign p1 with
      | none => none
      | some (false, p2) => some (Except.error ParserError.AssignExpected, p2)
      | some (true, p2) =>
        match Parser.next_token fuel p2 with
        | none => none
        | some p3 =>
          match parse_expression fuel Precedence.Lowest p3 with
          | none => none
          | some (Except.error e, p4) => some (Except.error e, p4)
          | some (Except.ok value, p4) =>
            match (if p4.peek_token.t = TokenType.Semicolon
                   then Parser.next_token fuel p4 else some p4) with
            | none => none
            | some p5 =>
              some (Except.ok (Node.LetStatement ident (some value)), p5)

/-- `Parser::parse_return_statement` from `src/parser.rs`. -/
def parse_return_statement : Nat → Parser → Option (Except ParserError Node × Parser)
  | 0, _ => none
  | fuel + 1, p =>
    match Parser.next_token fuel p with
    | none => none
    | some p1 =>
      match parse_expression fuel Precedence.Lowest p1 with
      | none => none
      | some (Except.error e, p2) => some (Except.error e, p2)
      | some (Except.ok value, p2) =>
        match (if p2.peek_token.t = TokenType.Semicolon
               then Parser.next_token fuel p2 else some p2) with
        | none => none
        | some p3 =>
          some (Except.ok (Node.ReturnStatement (some value)), p3)

/-- `Parser::parse_expression_statement` from `src/parser.rs`. -/
def parse_expression_statement : Nat → Parser → Option (Except ParserError Node × Parser)
  | 0, _ => none
  | fuel + 1, p =>
    match parse_expression fuel Precedence.Lowest p with
    | none => none
    | some (Except.error e, p1) => some (Except.error e, p1)
    | some (Except.ok exp, p1) =>
      match (if p1.peek_token.t = TokenType.Semicolon
             then Parser.next_token fuel p1 else some p1) with
      | none => none
      | some p2 =>
        some (Except.ok (Node.ExpressionStatement (some exp)), p2)

/-- The prefix-dispatch step and the infix loop of
`Parser::parse_expression` from `src/parser.rs`. -/
def parse_expression : Nat → Precedence → Parser → Option (Except ParserError Node × Parser)
  | 0, _, _ => none
  | fuel + 1, prec, p =>
    match (match p.curr_token.t with
           | TokenType.Ident => some (Except.ok (Node.Identifier p.curr_token), p)
           | TokenType.Int => some (parse_integer_literal p, p)
           | TokenType.Minus => parse_prefix_expression fuel p
           | TokenType.Bang => parse_prefix_expression fuel p
           | TokenType.True => some (parse_boolean_expression p, p)
           | TokenType.False => some (parse_boolean_expression p, p)
           | TokenType.LParen => parse_grouped_expression fuel p
           | TokenType.If => parse_if_expression fuel p
           | TokenType.Function => parse_function_literal fuel p
           | _ => some (Except.error ParserError.TokenUnrecognized, p)) with
    | none => none
    | some (Except.error e, p1) => some (Except.error e, p1)
    | some (Except.ok left, p1) => parse_expression_loop fuel prec left p1

/-- The `while` loop inside `Parser::parse_expression`: fold infix
operators into the left expression while the peek token is not `;` and its
precedence strictly exceeds the minimum. -/
def parse_expression_loop : Nat → Precedence → Node → Parser → Option (Except ParserError Node × Parser)
  | 0, _, _, _ => none
  | fuel + 1, prec, left, p =>
    if p.peek_token.t ≠ TokenType.Semicolon ∧
       Precedence.lt prec (check_peek_precedence p) = true then
      if should_keep_parsing p = false then some (Except.ok left, p)
      else
        match Parser.next_token fuel p with
        | none => none
        | some p1 =>
          match parse_infix_expression fuel left p1 with
          | none => none
          | some (Except.error e, p2) => some (Except.error e, p2)
          | some (Except.ok left1, p2) => parse_expression_loop fuel prec left1 p2
    else some (Except.ok left, p)

/-- `Parser::parse_prefix_expression` from `src/parser.rs`. -/
def parse_prefix_expression : Nat → Parser → Option (Except ParserError Node × Parser)
  | 0, _ => none
  | fuel + 1, p =>
    let tok := p.curr_token
    match Parser.next_token fuel p with
    | none => none
    | some p1 =>
      match parse_expression fuel Precedence.Prefix p1 with
      | none => none
      | some (Except.error e, p2) => some (Except.error e, p2)
      | some (Except.ok right, p2) =>
        some (Except.ok (Node.PrefixExpression tok.v right), p2)

/-- `Parser::parse_infix_expression` from `src/parser.rs`: the special case
for `(` dispatches to call parsing, every other operator parses its right
operand at the operator's own precedence. -/
def parse_infix_expression : Nat → Node → Parser → Option (Except ParserError Node × Parser)
  | 0, _, _ => none
  | fuel + 1, left, p =>
    if p.curr_token.t = TokenType.LParen then
      match Parser.next_token fuel p with
      | none => none
      | some p1 => parse_call_expression fuel left p1
    else
      let op := p.curr_token
      let prec := check_curr_precedence p
      match Parser.next_token fuel p with
      | none => none
      | some p1 =>
        match parse_expression fuel prec p1 with
        | none => none
        | some (Except.error e, p2) => some (Except.error e, p2)
        | some (Except.ok right, p2) =>
          some (Except.ok (Node.InfixExpression left op.v right), p2)

/-- `Parser::parse_grouped_expression` from `src/parser.rs`. -/
def parse_grouped_expression : Nat → Parser → Option (Except ParserError Node × Parser)
  | 0, _ => none
  | fuel + 1, p =>
    match Parser.next_token fuel p with
    | none => none
    | some p1 =>
      match parse_expression fuel Precedence.Lowest p1 with
      | none => none
      | some (Except.error e, p2) => some (Except.error e, p2)
      | some (Except.ok exp, p2) =>
        match Parser.expect_peek fuel TokenType.RParen p2 with
        | none => none
        | some (false, p3) =>
          some (Except.error ParserError.GroupExpressionParsingFailed, p3)
        | some (true, p3) => some (Except.ok exp, p3)

/-- `Parser::parse_if_expression` from `src/parser.rs`. -/
def parse_if_expression : Nat → Parser → Option (Except ParserError Node × Parser)
  | 0, _ => none
  | fuel + 1, p =>
    match Parser.next_token fuel p with
    | none => none
    | some p1 =>
      match parse_expression fuel Precedence.Lowest p1 with
      | none => none
      | some (Except.error e, p2) => some (Except.error e, p2)
      | some (Except.ok condition, p2) =>
        match Parser.expect_peek fuel TokenType.LBrace p2 with
        | none => none
        | some (false, p3) =>
          some (Except.error ParserError.IncorrectIfStatement, p3)
        | some (true, p3) =>
          match parse_block_statement fuel p3 with
          | none => none
          | some (Except.error e, p4) => some (Except.error e, p4)
          | some (Except.ok consequence, p4) =>
            if p4.peek_token.t = TokenType.Else then
              match Parser.next_token fuel p4 with
              | none => none
              | some p5 =>
                match Parser.expect_peek fuel TokenType.LBrace p5 with
                | none => none
                | some (false, p6) =>
                  some (Except.error ParserError.IncorrectIfStatement, p6)
                | some (true, p6) =>
                  match parse_block_statement fuel p6 with
                  | none => none
                  | some (Except.error e, p7) => some (Except.error e, p7)
                  | some (Except.ok alternative, p7) =>
                    some (Except.ok
                      (Node.IfExpression condition consequence (some alternative)), p7)
            else
              some (Except.ok (Node.IfExpression condition consequence none), p4)

/-- `Parser::parse_block_statement` from `src/parser.rs` (entry: one
advance, then the statement loop). -/
def parse_block_statement : Nat → Parser → Option (Except ParserError Node × Parser)
  | 0, _ => none
  | fuel + 1, p =>
    match Parser.next_token fuel p with
    | none => none
    | some p1 => parse_block_loop fuel [] p1

/-- The `while` loop of `Parser::parse_block_statement`: gather statements
until `}` or end-of-input; a statement failure aborts the block. -/
def parse_block_loop : Nat → List Node → Parser → Option (Except ParserError Node × Parser)
  | 0, _, _ => none
  | fuel + 1, acc, p =>
    if p.curr_token.t ≠ TokenType.RBrace ∧ p.curr_token.t ≠ TokenType.EOF then
      match parse_statement fuel p with
      | none => none
      | some (Except.error e, p1) => some (Except.error e, p1)
      | some (Except.ok stmt, p1) =>
        match Parser.next_token fuel p1 with
        | none => none
        | some p2 => parse_block_loop fuel (acc ++ [stmt]) p2
    else some (Except.ok (Node.BlockStatement acc), p)

/-- `Parser::parse_function_literal` from `src/parser.rs`. -/
def parse_function_literal : Nat → Parser → Option (Except ParserError Node × Parser)
  | 0, _ => none
  | fuel + 1, p =>
    match Parser.expect_peek fuel TokenType.LParen p with
    | none => none
    | some (false, p1) =>
      some (Except.error ParserError.IncorrectFunctionDeclaration, p1)
    | some (true, p1) =>
      match Parser.next_token fuel p1 with
      | none => none
      | some p2 =>
        match parse_fn_params_loop fuel [] p2 with
        | none => none
        | some (parameters, p3) =>
          match Parser.next_token fuel p3 with
          | none => none
          | some p4 =>
            match parse_block_statement fuel p4 with
            | none => none
            | some (Except.error e, p5) => some (Except.error e, p5)
            | some (Except.ok body, p5) =>
              some (Except.ok (Node.FunctionLiteral parameters body), p5)

/-- The parameter `while` loop of `Parser::parse_function_literal`: until
the current token is `)`, optionally skip a comma, then wrap the current
token — whatever its kind — as an `Identifier` parameter and advance. -/
def parse_fn_params_loop : Nat → List Node → Parser → Option (List Node × Parser)
  | 0, _, _ => none
  | fuel + 1, acc, p =>
    if p.curr_token.t = TokenType.RParen then some (acc, p)
    else
      match (if p.curr_token.t = TokenType.Comma
             then Parser.next_token fuel p else some p) with
      | none => none
      | some p1 =>
        let param := Node.Identifier p1.curr_token
        match Parser.next_token fuel p1 with
        | none => none
        | some p2 => parse_fn_params_loop fuel (acc ++ [param]) p2

/-- `Parser::parse_call_expression` from `src/parser.rs`. -/
def parse_call_expression : Nat → Node → Parser → Option (Except ParserError Node × Parser)
  | 0, _, _ => none
  | fuel + 1, func, p => parse_call_args_loop fuel func [] p

/-- The argument `while` loop of `Parser::parse_call_expression`: until the
current token is `)`, optionally skip a comma, parse one argument
expression at lowest precedence, and advance. -/
def parse_call_args_loop : Nat → Node → List Node → Parser → Option (Except ParserError Node × Parser)
  | 0, _, _, _ => none
  | fuel + 1, func, acc, p =>
    if p.curr_token.t = TokenType.RParen then
      some (Except.ok (Node.CallExpression func acc), p)
    else
      match (if p.curr_token.t = TokenType.Comma
             then Parser.next_token fuel p else some p) with
      | none => none
      | some p1 =>
        match parse_expression fuel Precedence.Lowest p1 with
        | none => none
        | some (Except.error e, p2) => some (Except.error e, p2)
        | some (Except.ok arg, p2) =>
          match Parser.next_token fuel p2 with
          | none => none
          | some p3 => parse_call_args_loop fuel func (acc ++ [arg]) p3

end

/-- `Parser::new` from `src/parser.rs`: pre-load the two tokens. -/
def Parser.new (fuel : Nat) (lx : Lexer) : Option Parser :=
  let p : Parser := ⟨lx, Token.default, Token.default, []⟩
  match Parser.next_token fuel p with
  | none => none
  | some p1 => Parser.next_token fuel p1

/-- The `while` loop of `Parser::parse_program`: until the current token is
end-of-input, parse one statement, appending it to the program on success
and appending its error to the error list on failure, then advance. -/
def parse_program_loop : Nat → List Node → Parser → Option (List Node × Parser)
  | 0, _, _ => none
  | fuel + 1, acc, p =>
    if p.finished then some (acc, p)
    else
      match parse_statement fuel p with
      | none => none
      | some (r, p1) =>
        let (acc1, p2) : List Node × Parser :=
          match r with
          | Except.ok stmt => (acc ++ [stmt], p1)
          | Except.error e => (acc, { p1 with errors := p1.errors ++ [e] })
        match Parser.next_token fuel p2 with
        | none => none
        | some p3 => parse_program_loop fuel acc1 p3

/-- End-to-end run of the source's front end on a character list:
`Lexer::new`, then `Parser::new`, then `Parser::parse_program`, yielding
the `Program` node and the collected errors. `none` renders a panic or a
computation that the given fuel cannot finish. -/
def parse_program (fuel : Nat) (input : List Char) : Option (Node × List ParserError) :=
  match Lexer.new input with
  | none => none
  | some lx =>
    match Parser.new fuel lx with
    | none => none
    | some p =>
      match parse_program_loop fuel [] p with
      | none => none
      | some (stmts, p1) => some (Node.Program stmts, p1.errors)

mutual

/-- Modelled from the spec: `Node::as_string`, the canonical textual
rendering, is absent from `src/` (only the tests in `src/parser.rs` call
it). Per §4.3: identifiers/literals render as their literal text;
a unary application as `(<op><operand>)`; a binary application as
`(<left> <op> <right>)`; statements render their sub-expression followed
by `;`; blocks and the program concatenate their statements' renderings;
function literals as `fn(<params>) \x7b <body> \x7d`; calls as
`<callee>(<args>)` with comma-space-separated arguments. -/
def as_string : Node → String
  | Node.Program statements => as_string_list statements
  | Node.LetStatement _ value =>
      (match value with | some v => as_string v | none => "") ++ ";"
  | Node.ReturnStatement value =>
      (match value with | some v => as_string v | none => "") ++ ";"
  | Node.ExpressionStatement expression =>
      (match expression with | some e => as_string e | none => "") ++ ";"
  | Node.BlockStatement statements => as_string_list statements
  | Node.Identifier tok => tok.v
  | Node.IntegerLiteral n => toString n
  | Node.Boolean b => if b then "true" else "false"
  | Node.PrefixExpression op right => "(" ++ op ++ as_string right ++ ")"
  | Node.InfixExpression left op right =>
      "(" ++ as_string left ++ " " ++ op ++ " " ++ as_string right ++ ")"
  | Node.IfExpression condition consequence alternative =>
      "if " ++ as_string condition ++ " \x7b " ++ as_string consequence ++ " \x7d" ++
      (match alternative with
       | some a => " else \x7b " ++ as_string a ++ " \x7d"
       | none => "")
  | Node.FunctionLiteral parameters body =>
      "fn(" ++ as_string_sep parameters ++ ") \x7b " ++ as_string body ++ " \x7d"
  | Node.CallExpression func arguments =>
      as_string func ++ "(" ++ as_string_sep arguments ++ ")"

/-- Concatenation of statement renderings (program and block bodies). -/
def as_string_list : List Node → String
  | [] => ""
  | n :: ns => as_string n ++ as_string_list ns

/-- Comma-space-separated renderings (parameter and argument lists). -/
def as_string_sep : List Node → String
  | [] => ""
  | [n] => as_string n
  | n :: ns => as_string n ++ ", " ++ as_string_sep ns

end

/-!
Supporting lemmas about the sentinel character and whitespace skipping.
-/

/-- At an exhausted buffer the digit scan never stops: the sentinel `'0'`
written by `read_char` itself satisfies `is_digit`, so the maximal-run
loop of `read_ident` re-reads it forever — `none` for every fuel. -/
theorem read_ident_digit_sentinel (fuel : Nat) :
    Lexer.read_ident is_digit fuel ⟨[], '0'⟩ = none := by
  induction fuel with
  | zero => rfl
  | succ n ih => simp [Lexer.read_ident, Lexer.read_char, is_digit, ih]

/-- A digit run that reaches the end of the buffer diverges: one step after
consuming the last digit, the lexer is on the sentinel with an empty
buffer, and `read_ident_digit_sentinel` applies. -/
theorem read_ident_digit_at_end (fuel : Nat) (c : Char) (hc : is_digit c = true) :
    Lexer.read_ident is_digit fuel ⟨[], c⟩ = none := by
  cases fuel with
  | zero => rfl
  | succ n =>
    simp [Lexer.read_ident, Lexer.read_char, hc, read_ident_digit_sentinel]

/-- Skipping whitespace over an all-whitespace rest of the input always
ends on the sentinel with an exhausted buffer. -/
theorem eat_ws_core_all_ws (cs : List Char) :
    ∀ c, is_whitespace c = true → cs.all is_whitespace = true →
      eat_ws_core cs c = ⟨[], '0'⟩ := by
  induction cs with
  | nil =>
    intro c hc _
    simp [eat_ws_core, hc]
  | cons d ds ih =>
    intro c hc hall
    simp only [List.all_cons, Bool.and_eq_true] at hall
    simp [eat_ws_core, hc, ih d hall.1 hall.2]

/-!
The claims.
-/

/-- C1: the claim asserts that `parse_program` terminates on every finite
input, in particular on inputs ending in a digit and on unclosed parameter
lists. Both fail on the code: on the input `"5"` the lexer's maximal digit
run walks onto the end-of-input sentinel `'0'`, which itself satisfies
`is_digit`, so the run never stops (`parse_program` yields `none` for
every fuel); and the parameter loop of `parse_function_literal`, once the
current and peek tokens are both end-of-input, reproduces its own state at
every iteration and never terminates either. -/
theorem c1_parse_program_diverges_when_input_ends_in_digit :
    (∀ fuel : Nat, parse_program fuel "5".data = none) ∧
    (∀ fuel : Nat, ∀ acc : List Node,
      parse_fn_params_loop fuel acc
        ⟨⟨[], '0'⟩, ⟨TokenType.EOF, ""⟩, ⟨TokenType.EOF, ""⟩, []⟩ = none) := by
  constructor
  · intro fuel
    have h5 : Lexer.next_token fuel ⟨[], '5'⟩ = none := by
      simp [Lexer.next_token, Lexer.eat_whitespace, eat_ws_core, is_whitespace,
            is_letter, is_digit, read_ident_digit_at_end]
    have hd : "5".data = ['5'] := rfl
    simp [hd, parse_program, Lexer.new, Parser.new, Parser.next_token, h5]
  · intro fuel
    induction fuel with
    | zero => intro acc; rfl
    | succ n ih =>
      intro acc
      have hstep :
          Parser.next_token n
            ⟨⟨[], '0'⟩, ⟨TokenType.EOF, ""⟩, ⟨TokenType.EOF, ""⟩, []⟩ =
          some ⟨⟨[], '0'⟩, ⟨TokenType.EOF, ""⟩, ⟨TokenType.EOF, ""⟩, []⟩ := rfl
      simp [parse_fn_params_loop, hstep, ih]

/-- C2: the claim asserts that constructing the lexer and parser and
running `parse_program` never panics, for every finite input including the
empty string. It fails on the code: `Lexer::new` runs
`input.next().unwrap()`, which panics on the empty string (rendered as
`none` of the constructor), so the whole pipeline aborts on empty input. -/
theorem c2_empty_input_panics_in_lexer_new :
    Lexer.new "".data = none ∧ ∀ fuel : Nat, parse_program fuel "".data = none :=
  ⟨rfl, fun _ => rfl⟩

/-- C3: the claim asserts that `==` is lexed as a single token and that
`"a == b;"` parses into one infix-`==` statement with no errors. It fails
on the code: the lexer has no two-character lookahead, so positioned on
the first `=` of `==` it emits a plain assign token consuming one
character, and the full parse of `"a == b;"` yields two identifier
expression statements and two `TokenUnrecognized` errors — the repository's
own `test_infix_expression` expects the contrary. -/
theorem c3_double_equals_lexes_as_two_assign_tokens :
    Lexer.next_token 90 ⟨['=', ' ', 'b', ';'], '='⟩ =
      some (⟨TokenType.Assign, "="⟩, ⟨[' ', 'b', ';'], '='⟩) ∧
    parse_program 90 "a == b;".data =
      some (Node.Program
        [Node.ExpressionStatement (some (Node.Identifier ⟨TokenType.Ident, "a"⟩)),
         Node.ExpressionStatement (some (Node.Identifier ⟨TokenType.Ident, "b"⟩))],
        [ParserError.TokenUnrecognized, ParserError.TokenUnrecognized]) :=
  ⟨rfl, rfl⟩

/-- C4: the claim asserts that an end-of-input token is returned only when
the buffer is exhausted, and that a position holding the real character
`'0'` yields a non-end-of-input token. It fails on the code: the sentinel
is the literal digit `'0'`, so on the input `"0+1"` the very first
`next_token` call — with `'+'` and `'1'` still unread in the buffer —
returns the end-of-input token with empty text. -/
theorem c4_literal_zero_in_input_yields_eof_token :
    Lexer.new "0+1".data = some ⟨['+', '1'], '0'⟩ ∧
    Lexer.next_token 9 ⟨['+', '1'], '0'⟩ =
      some (⟨TokenType.EOF, ""⟩, ⟨['1'], '+'⟩) :=
  ⟨rfl, rfl⟩

/-- C5: the claim asserts that for every input the token stream holds
exactly one end-of-input token and that, once one is returned, every later
call returns an identical end-of-input token. It fails on the code: on the
input `"0-1"` the first call returns the end-of-input token (the literal
`'0'` is the sentinel) and consumes the `'0'`, and the second call then
returns a minus token, which differs from the end-of-input token. -/
theorem c5_eof_token_not_idempotent_for_literal_zero :
    Lexer.new "0-1".data = some ⟨['-', '1'], '0'⟩ ∧
    Lexer.next_token 9 ⟨['-', '1'], '0'⟩ =
      some (⟨TokenType.EOF, ""⟩, ⟨['1'], '-'⟩) ∧
    Lexer.next_token 9 ⟨['1'], '-'⟩ =
      some (⟨TokenType.Minus, "-"⟩, ⟨[], '1'⟩) ∧
    (⟨TokenType.Minus, "-"⟩ : Token) ≠ ⟨TokenType.EOF, ""⟩ :=
  ⟨rfl, rfl, rfl, by decide⟩

/-- C6: parsing `"a - b - c;"` succeeds with no errors and the canonical
rendering of the resulting program is `"((a - b) - c);"` — the right-hand
operand of an infix operator is parsed at the operator's own precedence,
so same-precedence operators associate to the left. -/
theorem c6_same_precedence_minus_is_left_associative :
    (parse_program 95 "a - b - c;".data).map (fun r => (as_string r.1, r.2)) =
      some ("((a - b) - c);", []) := rfl

/-- C7 counterexample: the empty input consists only of whitespace
(vacuously — every one of its characters is whitespace), yet `Lexer::new`
panics on it (`input.next().unwrap()`), so `parse_program` cannot return
an empty statement list there. -/
theorem c7_whitespace_claim_fails_on_empty_input :
    "".data.all is_whitespace = true ∧ Lexer.new "".data = none :=
  ⟨rfl, rfl⟩

/-- C7 amended: for any nonempty input consisting only of whitespace
(space, tab, CR, LF), `parse_program` returns a program with an empty
statement list and an empty error list. -/
theorem c7_nonempty_whitespace_gives_empty_program
    (cs : List Char) (h1 : cs ≠ []) (h2 : cs.all is_whitespace = true) :
    parse_program 1 cs = some (Node.Program [], []) := by
  cases cs with
  | nil => exact absurd rfl h1
  | cons c rest =>
    simp only [List.all_cons, Bool.and_eq_true] at h2
    have hws : eat_ws_core rest c = ⟨[], '0'⟩ :=
      eat_ws_core_all_ws rest c h2.1 h2.2
    simp [parse_program, Lexer.new, Parser.new, Parser.next_token,
          Lexer.next_token, hws, Lexer.eat_whitespace, eat_ws_core,
          is_whitespace, Lexer.read_char, parse_program_loop, Parser.finished]

/-- C7 witness: the two-character whitespace input `" \t"` concretely
yields the empty program and the empty error list. -/
theorem c7_whitespace_witness :
    parse_program 1 " \t".data = some (Node.Program [], []) :=
  c7_nonempty_whitespace_gives_empty_program " \t".data (by decide) (by decide)

/-- C8: parsing `"let x 5;"` — a let statement missing its `=` — completes
and yields exactly one parse error, of kind `AssignExpected`. -/
theorem c8_let_missing_assign_one_error :
    parse_program 80 "let x 5;".data =
      some (Node.Program [Node.ExpressionStatement (some (Node.IntegerLiteral 5))],
            [ParserError.AssignExpected]) := rfl

/-- C9: after the let statement of `"let x 5;"` fails at the missing `=`,
the top-level loop resumes at the failing token rather than at a statement
boundary, so the `5` is reparsed as a top-level expression statement: the
returned statement list is the nonempty list holding an expression
statement wrapping the integer literal 5. -/
theorem c9_failed_let_tokens_reparsed_as_statements :
    (parse_program 85 "let x 5;".data).map (fun r => r.1) =
      some (Node.Program [Node.ExpressionStatement (some (Node.IntegerLiteral 5))]) ∧
    [Node.ExpressionStatement (some (Node.IntegerLiteral 5))] ≠ ([] : List Node) :=
  ⟨rfl, by simp⟩

/-- C10: function-literal parameter parsing performs no token-kind
validation: `"fn(5) \x7b\x7d"` parses with no error into a function
literal whose single parameter is an `Identifier` node carrying the
integer token `5`. -/
theorem c10_fn_literal_parameter_kind_unchecked :
    parse_program 70 "fn(5) \x7b\x7d".data =
      some (Node.Program
        [Node.ExpressionStatement (some (Node.FunctionLiteral
          [Node.Identifier ⟨TokenType.Int, "5"⟩] (Node.BlockStatement [])))],
        []) := rfl

end Interp
